import Mathlib

set_option maxHeartbeats 1000000

/-!
Shallow embedding of `main.go` from the `golang-best-practices-check`
repository: a pre-commit hook that sends each modified `.go` file to a
local ollama server and prints best-practice warnings from the model's
JSON reply.

The effectful primitives (`os.ReadFile`, the HTTP round trip) are modelled
by an explicit environment `Env`; everything the program computes from
their results — the guards, the JSON (un)marshalling of `encoding/json`
for the concrete struct types of the program, the printed strings, the
issued requests and the exit code — is embedded as executable Lean
functions.  Output is modelled as the list of strings emitted by the
`fmt.Println` / `fmt.Printf` calls, in order (`Println` appends a newline).
-/

namespace GoCheck

/-- JSON values, as parsed by Go's `encoding/json` scanner.  Numbers keep
their source text: the program never reads a numeric value, so no floating
point semantics is needed. -/
inductive Json where
  | null : Json
  | bool : Bool → Json
  | num : String → Json
  | str : String → Json
  | arr : List Json → Json
  | obj : List (String × Json) → Json

/-- JSON whitespace, per RFC 8259 (what Go's scanner skips): space,
horizontal tab, line feed, carriage return. -/
def isJsonWs (c : Char) : Bool :=
  [' ', '\t', '\n', '\x0d'].contains c

def skipWs (cs : List Char) : List Char :=
  match cs with
  | [] => []
  | c :: rest => if isJsonWs c then skipWs rest else cs

/-- The value of one hexadecimal digit (code points 48-57, 97-102, 65-70). -/
def hexVal (c : Char) : Option Nat :=
  let n := c.toNat
  if 48 ≤ n ∧ n ≤ 57 then some (n - 48)
  else if 97 ≤ n ∧ n ≤ 102 then some (n - 87)
  else if 65 ≤ n ∧ n ≤ 70 then some (n - 55)
  else none

/-- Four hexadecimal digits at the head of the input, with the rest. -/
def hex4 (cs : List Char) : Option (Nat × List Char) :=
  match cs with
  | a :: b :: c :: d :: rest =>
    match hexVal a, hexVal b, hexVal c, hexVal d with
    | some va, some vb, some vc, some vd =>
      some (va * 4096 + vb * 256 + vc * 16 + vd, rest)
    | _, _, _, _ => none
  | _ => none

/-- Single-character escapes accepted in JSON strings (everything except
`\u`), as first-match lookup in the escape table. -/
def escChar (c : Char) : Option Char :=
  [('"', '"'), ('\\', '\\'), ('/', '/'),
   ('b', Char.ofNat 8), ('f', Char.ofNat 12),
   ('n', '\n'), ('r', '\x0d'), ('t', '\t')].lookup c

/-- Code points U+D800 through U+DBFF. -/
def isHighSurr (n : Nat) : Bool := 55296 ≤ n ∧ n ≤ 56319

/-- Code points U+DC00 through U+DFFF. -/
def isLowSurr (n : Nat) : Bool := 56320 ≤ n ∧ n ≤ 57343

/-- The code point a surrogate pair denotes. -/
def surrPair (hi lo : Nat) : Nat := (hi - 55296) * 1024 + (lo - 56320) + 65536

/-- U+FFFD, what Go writes for an unpaired surrogate escape. -/
def repChar : Char := Char.ofNat 65533

/-- Scan the rest of a JSON string (the opening quote already consumed),
decoding escapes as Go's `encoding/json` does: `\uXXXX` escapes are hex,
surrogate pairs are combined, unpaired surrogates become U+FFFD, and raw
control characters below 0x20 are a syntax error.  `fuel` only bounds the
recursion: every recursive call consumes at least one input character, so
`input length + 1` fuel never runs out. -/
def parseStrCore : Nat → List Char → List Char → Option (String × List Char)
  | 0, _, _ => none
  | Nat.succ fuel, acc, cs =>
    match cs with
    | [] => none
    | '"' :: rest => some (String.mk acc.reverse, rest)
    | '\\' :: 'u' :: tail =>
      match hex4 tail with
      | none => none
      | some (n, rest) =>
        if isHighSurr n then
          match rest with
          | '\\' :: 'u' :: tail2 =>
            match hex4 tail2 with
            | some (m, rest2) =>
              if isLowSurr m then
                parseStrCore fuel (Char.ofNat (surrPair n m) :: acc) rest2
              else parseStrCore fuel (repChar :: acc) rest
            | none => parseStrCore fuel (repChar :: acc) rest
          | _ => parseStrCore fuel (repChar :: acc) rest
        else if isLowSurr n then parseStrCore fuel (repChar :: acc) rest
        else parseStrCore fuel (Char.ofNat n :: acc) rest
    | '\\' :: e :: rest =>
      match escChar e with
      | some c => parseStrCore fuel (c :: acc) rest
      | none => none
    | c :: rest => if c.toNat < 32 then none else parseStrCore fuel (c :: acc) rest

/-- Scan the rest of a JSON string with enough fuel for its whole input. -/
def parseStrRest (acc : List Char) (cs : List Char) : Option (String × List Char) :=
  parseStrCore (cs.length + 1) acc cs

/-- A decimal digit (Go's scanner; same predicate as `Char.isDigit`). -/
def isDigit (c : Char) : Bool := c.isDigit

def takeDigits (acc : List Char) : List Char → (List Char × List Char)
  | [] => (acc.reverse, [])
  | c :: cs => if isDigit c then takeDigits (c :: acc) cs else (acc.reverse, c :: cs)

/-- Exponent part of a JSON number (possibly empty). -/
def numExpPart (cs : List Char) : Option (List Char × List Char) :=
  match cs with
  | e :: t =>
    if e == 'e' || e == 'E' then
      match t with
      | s :: t2 =>
        if s == '+' || s == '-' then
          match takeDigits [] t2 with
          | ([], _) => none
          | (ds, rest) => some (e :: s :: ds, rest)
        else
          match takeDigits [] t with
          | ([], _) => none
          | (ds, rest) => some (e :: ds, rest)
      | [] => none
    else some ([], cs)
  | [] => some ([], cs)

/-- Fraction then exponent part of a JSON number (possibly empty). -/
def numFracPart (cs : List Char) : Option (List Char × List Char) :=
  match cs with
  | '.' :: t =>
    match takeDigits [] t with
    | ([], _) => none
    | (ds, rest) =>
      match numExpPart rest with
      | some (es, rest2) => some ('.' :: ds ++ es, rest2)
      | none => none
  | _ => numExpPart cs

/-- Scan a JSON number per RFC 8259 (Go's scanner), returning its text. -/
def parseNumCore (cs : List Char) : Option (List Char × List Char) :=
  let signed : Bool × List Char :=
    match cs with
    | '-' :: t => (true, t)
    | _ => (false, cs)
  match signed.2 with
  | '0' :: t =>
    match numFracPart t with
    | some (fs, rest) =>
      some ((if signed.1 then ['-', '0'] else ['0']) ++ fs, rest)
    | none => none
  | c :: t =>
    if isDigit c then
      match takeDigits [] (c :: t) with
      | (ds, rest) =>
        match numFracPart rest with
        | some (fs, rest2) =>
          some ((if signed.1 then '-' :: ds else ds) ++ fs, rest2)
        | none => none
    else none
  | [] => none

/-- Elements of a non-empty JSON array, given a value parser `pv`. -/
def parseElems (pv : List Char → Option (Json × List Char)) :
    Nat → List Json → List Char → Option (List Json × List Char)
  | 0, _, _ => none
  | Nat.succ fuel, acc, cs =>
    match pv cs with
    | none => none
    | some (v, rest) =>
      match skipWs rest with
      | ']' :: rest2 => some ((v :: acc).reverse, rest2)
      | ',' :: rest2 => parseElems pv fuel (v :: acc) rest2
      | _ => none

/-- Members of a non-empty JSON object, given a value parser `pv`. -/
def parseMembers (pv : List Char → Option (Json × List Char)) :
    Nat → List (String × Json) → List Char → Option (List (String × Json) × List Char)
  | 0, _, _ => none
  | Nat.succ fuel, acc, cs =>
    match skipWs cs with
    | '"' :: cs1 =>
      match parseStrRest [] cs1 with
      | none => none
      | some (k, cs2) =>
        match skipWs cs2 with
        | ':' :: cs3 =>
          match pv cs3 with
          | none => none
          | some (v, cs4) =>
            match skipWs cs4 with
            | '\x7d' :: cs5 => some (((k, v) :: acc).reverse, cs5)
            | ',' :: cs5 => parseMembers pv fuel ((k, v) :: acc) cs5
            | _ => none
        | _ => none
    | _ => none

/-- Go's scanner refuses more than 10000 nested parse states with an
"exceeded max depth" error (`maxNestingDepth` in `encoding/json/scanner.go`);
every `[` or `{` pushes one state. -/
def maxNestingDepth : Nat := 10000

/-- Parse one JSON value inside `depth` open containers; `fuel` bounds the
recursion (every recursive call is preceded by consuming at least one
character, so `length + 2` fuel is enough at top level), while the depth
check models Go's nesting limit. -/
def parseVal : Nat → Nat → List Char → Option (Json × List Char)
  | 0, _, _ => none
  | Nat.succ fuel, depth, cs =>
    match skipWs cs with
    | [] => none
    | c :: rest =>
      if c == '"' then
        match parseStrRest [] rest with
        | some (s, r) => some (Json.str s, r)
        | none => none
      else if c == '\x7b' then
        if maxNestingDepth < depth + 1 then none
        else
          match skipWs rest with
          | '\x7d' :: r => some (Json.obj [], r)
          | _ =>
            match parseMembers (parseVal fuel (depth + 1)) fuel [] rest with
            | some (kvs, r) => some (Json.obj kvs, r)
            | none => none
      else if c == '[' then
        if maxNestingDepth < depth + 1 then none
        else
          match skipWs rest with
          | ']' :: r => some (Json.arr [], r)
          | _ =>
            match parseElems (parseVal fuel (depth + 1)) fuel [] rest with
            | some (xs, r) => some (Json.arr xs, r)
            | none => none
      else if c == 't' then
        match rest with
        | 'r' :: 'u' :: 'e' :: r => some (Json.bool true, r)
        | _ => none
      else if c == 'f' then
        match rest with
        | 'a' :: 'l' :: 's' :: 'e' :: r => some (Json.bool false, r)
        | _ => none
      else if c == 'n' then
        match rest with
        | 'u' :: 'l' :: 'l' :: r => some (Json.null, r)
        | _ => none
      else if c == '-' || isDigit c then
        match parseNumCore (c :: rest) with
        | some (ds, r) => some (Json.num (String.mk ds), r)
        | none => none
      else none

/-- Top-level JSON parse, as `json.Unmarshal` validates its input: one value,
surrounding whitespace allowed, anything after it is an error. -/
def Json.parse (s : String) : Except String Json :=
  match skipWs s.data with
  | [] => Except.error "unexpected end of JSON input"
  | cs =>
    match parseVal (s.length + 2) 0 cs with
    | none => Except.error "invalid JSON input"
    | some (v, rest) =>
      match skipWs rest with
      | [] => Except.ok v
      | _ => Except.error "invalid character after top-level value"

/-- The fixed system prompt of `queryLLM` (the Go raw string literal passed
through `fmt.Sprintf`, which contains no verbs and is the identity here). -/
def systemPrompt : String :=
  "You check go files given for best practices following the official style guide. You will reply in json format. Only reply with the json output and nothing more. The json response should have this format:\n\t\t\tA \"follows_best_practices\" boolean fields and a \"suggestions\" string field. \n\t\t\tExample:\n\t\t\t\x7b\n\t\t\t\t\"follows_best_practices\": false,\n\t\t\t\t\"suggestions\": \"The function name ParseYAMLConfig does not follow the Go best practices as it\x27s repeating the package name bla bla bla...\"\n\t\t\t\x7d\n\t    Do NOT include any other field in the json response.\n\t\tSuggestions need to be as short and concise as possible, there can be no suggestions if the file appears to be following the best practices. But always indicate suggestions if the file does not follow the best practices.\n\t\tYou are only given files that have been modified in the current commit so you will lack some context, do not criticize the lack of context. Only check for the best practices that you can observe in the file you are checking at the moment.\n\t\tDo not criticize whether the logic makes sense only check for go best practices. You will reply with a json response.\n\t\t"

/-- One rune `r` of an object key fold-matches one character `t` of a
struct tag, under Go's `encoding/json` key matching (`bytes.EqualFold`,
Unicode simple folding).  The tags of this program are all lowercase ASCII
letters and underscores, and the only runes whose simple-fold orbit meets
an ASCII letter beyond its own upper case are U+017F LATIN SMALL LETTER
LONG S (folds with `s`) and U+212A KELVIN SIGN (folds with `k`) — see
Go's `encoding/json/fold.go`.  So against such a tag character: a letter
matches itself, its upper-case form (code point 32 below), and for `s` /
`k` the special rune; anything else matches only itself. -/
def foldMatchesAscii (r t : Char) : Bool :=
  r == t
  || (97 ≤ t.toNat && t.toNat ≤ 122 && r.toNat + 32 == t.toNat)
  || (t == 's' && r.toNat == 383)
  || (t == 'k' && r.toNat == 8490)

/-- Does object key `k` select the struct field tagged `tag`?  Go matches
the key exactly or, failing that, under `bytes.EqualFold`; for the fixed
lowercase-ASCII tags of this program's structs that is: same rune count
and every key rune fold-matches the tag rune at its position. -/
def jsonKeyMatch (k tag : String) : Bool :=
  k.length == tag.length
    && (k.data.zip tag.data).all fun p => foldMatchesAscii p.1 p.2

/-- The inner verdict struct (`LLMResponse` in `main.go`), with its
`json:` tag names: `follows_best_practices` and `suggestions`. -/
structure LLMResponse where
  follows_best_practices : Bool
  suggestions : String
deriving DecidableEq

/-- One object member applied to an `LLMResponse` being decoded, as
`encoding/json` does: a matching key must hold a value of the field's type
(`null` is a no-op), a non-matching key is ignored, later duplicates win. -/
def applyLLMField (acc : LLMResponse) (kv : String × Json) : Except String LLMResponse :=
  if jsonKeyMatch kv.1 "follows_best_practices" then
    match kv.2 with
    | Json.bool b => Except.ok ⟨b, acc.suggestions⟩
    | Json.null => Except.ok acc
    | _ => Except.error "cannot unmarshal value into field follows_best_practices of type bool"
  else if jsonKeyMatch kv.1 "suggestions" then
    match kv.2 with
    | Json.str s => Except.ok ⟨acc.follows_best_practices, s⟩
    | Json.null => Except.ok acc
    | _ => Except.error "cannot unmarshal value into field suggestions of type string"
  else Except.ok acc

/-- `json.Unmarshal(data, &LLMResponse{})`: the zero value updated by the
members of a top-level object; `null` leaves the zero value; any other
top-level kind is a type error. -/
def unmarshalLLMResponse (s : String) : Except String LLMResponse :=
  match Json.parse s with
  | Except.error e => Except.error e
  | Except.ok Json.null => Except.ok ⟨false, ""⟩
  | Except.ok (Json.obj kvs) => kvs.foldlM applyLLMField ⟨false, ""⟩
  | Except.ok _ => Except.error "cannot unmarshal value into Go value of type main.LLMResponse"

/-- The outer envelope struct (`ollamaResponse` in `main.go`), tag
`response`. -/
structure ollamaResponse where
  response : String
deriving DecidableEq

def applyOllamaField (acc : ollamaResponse) (kv : String × Json) : Except String ollamaResponse :=
  if jsonKeyMatch kv.1 "response" then
    match kv.2 with
    | Json.str s => Except.ok ⟨s⟩
    | Json.null => Except.ok acc
    | _ => Except.error "cannot unmarshal value into field response of type string"
  else Except.ok acc

/-- `json.Unmarshal(body, &ollamaResponse{})`. -/
def unmarshalOllamaResponse (s : String) : Except String ollamaResponse :=
  match Json.parse s with
  | Except.error e => Except.error e
  | Except.ok Json.null => Except.ok ⟨""⟩
  | Except.ok (Json.obj kvs) => kvs.foldlM applyOllamaField ⟨""⟩
  | Except.ok _ => Except.error "cannot unmarshal value into Go value of type main.ollamaResponse"

/-- The request struct (`ollamaRequest` in `main.go`), fields in source
declaration order, which is also `json.Marshal`'s output order. -/
structure ollamaRequest where
  model : String
  prompt : String
  format : String
  system : String
  stream : Bool
deriving DecidableEq

/-- Lower-case hexadecimal digit character for a value below 16. -/
def hexDigit (n : Nat) : Char := Char.ofNat (if n < 10 then 48 + n else 87 + n)

/-- How `encoding/json` (with its default HTML escaping) encodes one
character of a Go string. -/
def jsonEscapeChar (c : Char) : List Char :=
  if c == '"' then ['\\', '"']
  else if c == '\\' then ['\\', '\\']
  else if c == '\n' then ['\\', 'n']
  else if c == '\r' then ['\\', 'r']
  else if c == '\t' then ['\\', 't']
  else if c == '<' then ['\\', 'u', '0', '0', '3', 'c']
  else if c == '>' then ['\\', 'u', '0', '0', '3', 'e']
  else if c == '&' then ['\\', 'u', '0', '0', '2', '6']
  else if c.toNat < 0x20 then ['\\', 'u', '0', '0', hexDigit (c.toNat / 16), hexDigit (c.toNat % 16)]
  else if c.toNat == 0x2028 then ['\\', 'u', '2', '0', '2', '8']
  else if c.toNat == 0x2029 then ['\\', 'u', '2', '0', '2', '9']
  else [c]

def escAll : List Char → List Char
  | [] => []
  | c :: cs => jsonEscapeChar c ++ escAll cs

/-- A Go string as a JSON string literal (`encoding/json` encoder). -/
def jsonQuote (s : String) : String := "\"" ++ String.mk (escAll s.data) ++ "\""

/-- `json.Marshal` of an `ollamaRequest`: an object with the five tagged
fields in declaration order.  For this struct marshalling cannot fail, so
it is total. -/
def marshalOllamaRequest (r : ollamaRequest) : String :=
  "\x7b\"model\":" ++ jsonQuote r.model ++
  ",\"prompt\":" ++ jsonQuote r.prompt ++
  ",\"format\":" ++ jsonQuote r.format ++
  ",\"system\":" ++ jsonQuote r.system ++
  ",\"stream\":" ++ (if r.stream then "true" else "false") ++ "\x7d"

/-- `var ollamaPort = 11435` in `main.go`. -/
def ollamaPort : Nat := 11435

/-- An HTTP request as the program hands it to `client.Do`. -/
structure HttpRequest where
  method : String
  url : String
  contentType : String
  body : String
deriving DecidableEq

/-- Outcome of the HTTP round trip: `client.Do` fails, reading the response
body fails, or a body is obtained (the program never looks at the status
code). -/
inductive NetOutcome where
  | doError : NetOutcome
  | readError : String → NetOutcome
  | success : String → NetOutcome

/-- The effectful world the program runs against: `os.ReadFile` (content or
error text) and the HTTP round trip.  The spawned `ollama serve` subprocess
(`startOllama`) only influences the program through `net`, so it needs no
embedding of its own. -/
structure Env where
  readFile : String → Except String String
  net : HttpRequest → NetOutcome

/-- `strings.HasSuffix` from the Go standard library.  Go compares byte
suffixes; on valid UTF-8 (all Lean strings) that coincides with character
suffixes, embedded here over the character lists. -/
def hasSuffix (s post : String) : Bool := post.data.isSuffixOf s.data

/-- The `llmRequest` value built inside `queryLLM` for a file. -/
def llmRequestFor (filename content : String) : ollamaRequest :=
  ⟨"qwen2.5-coder:7b",
   "File to check:\nFilename: " ++ filename ++ "\nContent:\n" ++ content,
   "json",
   systemPrompt,
   false⟩

/-- The HTTP request `queryLLM` issues for a file: POST of the marshalled
`ollamaRequest` to `http://127.0.0.1:<ollamaPort>/api/generate` with
content type `application/json`. -/
def buildRequest (filename content : String) : HttpRequest :=
  ⟨"POST",
   "http://127.0.0.1:" ++ toString ollamaPort ++ "/api/generate",
   "application/json",
   marshalOllamaRequest (llmRequestFor filename content)⟩

/-- `queryLLM` from `main.go`: build and send the request, then unmarshal
the outer envelope and the nested verdict.  (`json.Marshal` and
`http.NewRequest` cannot fail on these inputs, so their error returns are
dead code.) -/
def queryLLM (env : Env) (filename content : String) : Except String LLMResponse :=
  match env.net (buildRequest filename content) with
  | NetOutcome.doError => Except.error "error running ollama command"
  | NetOutcome.readError e => Except.error ("error reading response body " ++ e)
  | NetOutcome.success body =>
    match unmarshalOllamaResponse body with
    | Except.error e => Except.error ("error unmarshalling response: " ++ e)
    | Except.ok oResp =>
      match unmarshalLLMResponse oResp.response with
      | Except.error e => Except.error ("error unmarshalling LLM response: " ++ e)
      | Except.ok llmResponse => Except.ok llmResponse

/-- What one iteration of the `for _, file := range files` loop produces:
the strings it prints, the HTTP requests it issues, the files it passes to
`os.ReadFile`, and whether it set `warn = true`. -/
structure StepResult where
  out : List String
  calls : List HttpRequest
  reads : List String
  warn : Bool
deriving DecidableEq

/-- One iteration of the main loop of `main.go` (lines 42-70). -/
def stepFile (env : Env) (file : String) : StepResult :=
  if !(hasSuffix file ".go") then ⟨[], [], [], false⟩
  else
    match env.readFile file with
    | Except.error e =>
      ⟨["Error reading file " ++ file ++ ": " ++ e ++ "\n"], [], [file], false⟩
    | Except.ok content =>
      if content.length > 8000 then
        ⟨["Skipping file " ++ file ++ " as it has more than 8000 characters\n"],
         [], [file], false⟩
      else
        match queryLLM env file content with
        | Except.error e =>
          ⟨["Error querying LLM for file " ++ file ++ ": " ++ e ++ "\n"],
           [buildRequest file content], [file], false⟩
        | Except.ok llmResponse =>
          if !llmResponse.follows_best_practices then
            ⟨["\nFile: " ++ file ++ " does not follow best practices:\n",
              "Suggestions: " ++ llmResponse.suggestions ++ "\n",
              "--------------------------------------------\n"],
             [buildRequest file content], [file], true⟩
          else ⟨[], [buildRequest file content], [file], false⟩

/-- The whole loop, left to right; `warn` is the disjunction of the
per-file flags (the loop only ever sets it to `true`). -/
def loop (env : Env) : List String → StepResult
  | [] => ⟨[], [], [], false⟩
  | file :: rest =>
    let s := stepFile env file
    let r := loop env rest
    ⟨s.out ++ r.out, s.calls ++ r.calls, s.reads ++ r.reads, s.warn || r.warn⟩

/-- An entire run: everything printed, every HTTP request issued, every
file read, and the exit code. -/
structure RunResult where
  output : List String
  calls : List HttpRequest
  reads : List String
  exitCode : Nat
deriving DecidableEq

def warnLine : String :=
  "\nWarning: Some files do not follow Golang best practices. Please review the suggestions above.\n"

def allClearLine : String := "All checked files follow Golang best practices.\n"

/-- `main` from `main.go`: the empty-argument guard, the 20-file guard,
the loop, and the final aggregate line; every path ends in `os.Exit(0)`. -/
def main (env : Env) (files : List String) : RunResult :=
  if files.length = 0 then
    ⟨["No files provided for the hook.\n"], [], [], 0⟩
  else if files.length > 20 then
    ⟨["Skipping as analysing more than 20 files would take too long\n"], [], [], 0⟩
  else
    let r := loop env files
    ⟨r.out ++ [if r.warn then warnLine else allClearLine], r.calls, r.reads, 0⟩

/-- A well-formed member for decoding into `LLMResponse`: if the key selects
one of the two struct fields, its value has that field's type (or is
`null`); keys selecting no field are unconstrained. -/
def llmFieldOK (kv : String × Json) : Bool :=
  (!(jsonKeyMatch kv.1 "follows_best_practices")
     || (match kv.2 with | Json.bool _ => true | Json.null => true | _ => false))
  && (!(jsonKeyMatch kv.1 "suggestions")
     || (match kv.2 with | Json.str _ => true | Json.null => true | _ => false))

/- Concrete mocked environments used to exercise the embedding. -/

/-- Server reply whose inner verdict fails with suggestion `use gofmt`. -/
def bodyFail : String :=
  "\x7b\"response\":\"\x7b\\\"follows_best_practices\\\":false,\\\"suggestions\\\":\\\"use gofmt\\\"\x7d\"\x7d"

/-- Server reply whose inner verdict passes. -/
def bodyPass : String :=
  "\x7b\"response\":\"\x7b\\\"follows_best_practices\\\":true,\\\"suggestions\\\":\\\"\\\"\x7d\"\x7d"

def envFail : Env := ⟨fun _ => Except.ok "x", fun _ => NetOutcome.success bodyFail⟩

def envPass : Env := ⟨fun _ => Except.ok "x", fun _ => NetOutcome.success bodyPass⟩

/-- Environment whose server reply carries the (valid, non-object) inner
JSON `[]`. -/
def envArr : Env :=
  ⟨fun _ => Except.ok "x", fun _ => NetOutcome.success "\x7b\"response\":\"[]\"\x7d"⟩

/-- Environment where every read fails. -/
def envReadErr : Env := ⟨fun _ => Except.error "boom", fun _ => NetOutcome.doError⟩

/-- A file body of exactly 8000 characters. -/
def content8000 : String := String.mk (List.replicate 8000 'a')

/-- A file body of 8001 characters. -/
def content8001 : String := String.mk (List.replicate 8001 'a')

/-- A file body of 2001 four-byte characters: 8004 UTF-8 bytes but only
2001 runes. -/
def contentWide : String := String.mk (List.replicate 2001 (Char.ofNat 0x1D569))

def env8000 : Env := ⟨fun _ => Except.ok content8000, fun _ => NetOutcome.doError⟩

def env8001 : Env := ⟨fun _ => Except.ok content8001, fun _ => NetOutcome.doError⟩

def envWide : Env := ⟨fun _ => Except.ok contentWide, fun _ => NetOutcome.doError⟩

/-!  Helper lemmas about the embedding. -/

theorem length_mk_replicate (n : Nat) (c : Char) :
    (String.mk (List.replicate n c)).length = n := by
  simp [String.length]

theorem utf8Len_replicate (c : Char) :
    ∀ n : Nat, String.utf8Len (List.replicate n c) = n * c.utf8Size := by
  intro n
  induction n with
  | zero => simp [List.replicate]
  | succ m ih => simp [List.replicate, ih, Nat.succ_mul, Nat.add_comm]

theorem utf8ByteSize_mk_replicate (n : Nat) (c : Char) :
    (String.mk (List.replicate n c)).utf8ByteSize = n * c.utf8Size := by
  simp [utf8Len_replicate]

/-- The loop distributes over list append, componentwise. -/
theorem loop_append (env : Env) (l1 l2 : List String) :
    loop env (l1 ++ l2) =
      ⟨(loop env l1).out ++ (loop env l2).out,
       (loop env l1).calls ++ (loop env l2).calls,
       (loop env l1).reads ++ (loop env l2).reads,
       (loop env l1).warn || (loop env l2).warn⟩ := by
  induction l1 with
  | nil => simp [loop]
  | cons f t ih => simp [loop, ih, Bool.or_assoc]

/-- On a non-empty list of at most 20 files, `main` runs the loop and
appends the aggregate line. -/
theorem main_eq_loop (env : Env) (files : List String)
    (h0 : files ≠ []) (h20 : files.length ≤ 20) :
    main env files =
      ⟨(loop env files).out ++ [if (loop env files).warn then warnLine else allClearLine],
       (loop env files).calls, (loop env files).reads, 0⟩ := by
  have hlen0 : ¬ (files.length = 0) := by
    simpa [List.length_eq_zero] using h0
  have hlen20 : ¬ (files.length > 20) := by omega
  simp [main, hlen0, hlen20]

/-- A `.go` file that is read successfully, is within the size limit and
gets a verdict is processed to the verdict branch; in all the remaining
branches (query error included) exactly one request is issued. -/
theorem stepFile_calls_eligible (env : Env) (f content : String)
    (hgo : hasSuffix f ".go" = true)
    (hread : env.readFile f = Except.ok content)
    (hsize : content.length ≤ 8000) :
    (stepFile env f).calls = [buildRequest f content] := by
  have hnotbig : ¬ (content.length > 8000) := by omega
  rcases hq : queryLLM env f content with e | r
  · simp [stepFile, hgo, hread, hnotbig, hq]
  · rcases hr : r.follows_best_practices <;>
      simp [stepFile, hgo, hread, hnotbig, hq, hr]

/-- Calls of a whole run, decomposed at one eligible file. -/
theorem main_calls_at_eligible (env : Env) (l1 l2 : List String) (f content : String)
    (hlen : (l1 ++ f :: l2).length ≤ 20)
    (hgo : hasSuffix f ".go" = true)
    (hread : env.readFile f = Except.ok content)
    (hsize : content.length ≤ 8000) :
    (main env (l1 ++ f :: l2)).calls =
      (loop env l1).calls ++ [buildRequest f content] ++ (loop env l2).calls := by
  have hne : l1 ++ f :: l2 ≠ [] := by simp
  rw [main_eq_loop env _ hne hlen]
  rw [loop_append env l1 (f :: l2)]
  simp [loop, stepFile_calls_eligible env f content hgo hread hsize]

/-- Folding well-formed members over an `LLMResponse` accumulator never
fails, and fields no member selects keep their accumulator value. -/
theorem foldLLM_ok :
    ∀ (kvs : List (String × Json)) (acc : LLMResponse),
      (∀ kv ∈ kvs, llmFieldOK kv = true) →
      ∃ r, kvs.foldlM applyLLMField acc = Except.ok r ∧
        ((∀ kv ∈ kvs, jsonKeyMatch kv.1 "follows_best_practices" = false) →
          r.follows_best_practices = acc.follows_best_practices) ∧
        ((∀ kv ∈ kvs, jsonKeyMatch kv.1 "suggestions" = false) →
          r.suggestions = acc.suggestions) := by
  intro kvs
  induction kvs with
  | nil =>
    intro acc _
    exact ⟨acc, rfl, fun _ => rfl, fun _ => rfl⟩
  | cons kv t ih =>
    intro acc hok
    have hokh : llmFieldOK kv = true := hok kv (by simp)
    have hokt : ∀ kv2 ∈ t, llmFieldOK kv2 = true := fun kv2 h2 => hok kv2 (by simp [h2])
    have hstep : ∃ acc2, applyLLMField acc kv = Except.ok acc2 ∧
        (jsonKeyMatch kv.1 "follows_best_practices" = false →
          acc2.follows_best_practices = acc.follows_best_practices) ∧
        (jsonKeyMatch kv.1 "suggestions" = false → acc2.suggestions = acc.suggestions) := by
      by_cases hfbp : jsonKeyMatch kv.1 "follows_best_practices" = true
      · have hty : (match kv.2 with
            | Json.bool _ => true | Json.null => true | _ => false) = true := by
          have := hokh
          unfold llmFieldOK at this
          simp [hfbp] at this
          exact this.1
        rcases kv with ⟨k, v⟩
        rcases v with _ | b | x | x | x | x <;> simp at hty
        · exact ⟨acc, by simp [applyLLMField, hfbp], fun _ => rfl, fun _ => rfl⟩
        · refine ⟨⟨b, acc.suggestions⟩, by simp [applyLLMField, hfbp], ?_, fun _ => rfl⟩
          intro hfalse
          simp_all
      · by_cases hsg : jsonKeyMatch kv.1 "suggestions" = true
        · have hty : (match kv.2 with
              | Json.str _ => true | Json.null => true | _ => false) = true := by
            have := hokh
            unfold llmFieldOK at this
            simp [hsg] at this
            exact this.2
          rcases kv with ⟨k, v⟩
          rcases v with _ | b | x | x | x | x <;> simp at hty
          · exact ⟨acc, by simp [applyLLMField, hsg, hfbp], fun _ => rfl, fun _ => rfl⟩
          · refine ⟨⟨acc.follows_best_practices, x⟩,
              by simp [applyLLMField, hsg, hfbp], fun _ => rfl, ?_⟩
            intro hfalse
            simp_all
        · refine ⟨acc, ?_, fun _ => rfl, fun _ => rfl⟩
          simp [applyLLMField, hfbp, hsg]
    rcases hstep with ⟨acc2, heq, hkeep1, hkeep2⟩
    rcases ih acc2 hokt with ⟨r, hfold, hr1, hr2⟩
    refine ⟨r, ?_, ?_, ?_⟩
    · simp only [List.foldlM, heq]
      exact hfold
    · intro hall
      have hh := hall kv (by simp)
      have ht : ∀ kv2 ∈ t, jsonKeyMatch kv2.1 "follows_best_practices" = false :=
        fun kv2 h2 => hall kv2 (by simp [h2])
      rw [hr1 ht, hkeep1 hh]
    · intro hall
      have hh := hall kv (by simp)
      have ht : ∀ kv2 ∈ t, jsonKeyMatch kv2.1 "suggestions" = false :=
        fun kv2 h2 => hall kv2 (by simp [h2])
      rw [hr2 ht, hkeep2 hh]

/-- C1: for every processed `.go` file whose parsed verdict has
`follows_best_practices = false`, the run prints a per-file report
containing that file's name and its suggestions text, and the aggregate
warning line is printed after the loop (it is the last line printed). -/
theorem C1_failing_verdict_reported (env : Env) (l1 l2 : List String)
    (f content : String) (r : LLMResponse)
    (hlen : (l1 ++ f :: l2).length ≤ 20)
    (hgo : hasSuffix f ".go" = true)
    (hread : env.readFile f = Except.ok content)
    (hsize : content.length ≤ 8000)
    (hquery : queryLLM env f content = Except.ok r)
    (hfail : r.follows_best_practices = false) :
    ("\nFile: " ++ f ++ " does not follow best practices:\n")
        ∈ (main env (l1 ++ f :: l2)).output ∧
    ("Suggestions: " ++ r.suggestions ++ "\n") ∈ (main env (l1 ++ f :: l2)).output ∧
    ∃ pre, (main env (l1 ++ f :: l2)).output = pre ++ [warnLine] := by
  have hne : l1 ++ f :: l2 ≠ [] := by simp
  have hmain := main_eq_loop env (l1 ++ f :: l2) hne hlen
  have hnotbig : ¬ (content.length > 8000) := by omega
  have hstep : stepFile env f =
      ⟨["\nFile: " ++ f ++ " does not follow best practices:\n",
        "Suggestions: " ++ r.suggestions ++ "\n",
        "--------------------------------------------\n"],
       [buildRequest f content], [f], true⟩ := by
    simp [stepFile, hgo, hread, hnotbig, hquery, hfail]
  have hloop := loop_append env l1 (f :: l2)
  have hwarn : (loop env (l1 ++ f :: l2)).warn = true := by
    rw [hloop]; simp [loop, hstep]
  have hout : (loop env (l1 ++ f :: l2)).out =
      (loop env l1).out ++
        (("\nFile: " ++ f ++ " does not follow best practices:\n") ::
         ("Suggestions: " ++ r.suggestions ++ "\n") ::
         "--------------------------------------------\n" :: (loop env l2).out) := by
    rw [hloop]; simp [loop, hstep]
  refine ⟨?_, ?_, ?_⟩
  · rw [hmain]; simp [hout]
  · rw [hmain]; simp [hout]
  · refine ⟨(loop env (l1 ++ f :: l2)).out, ?_⟩
    rw [hmain, hwarn]
    simp

/-- C1 witness: a single mocked file whose verdict fails with suggestion
`use gofmt`. -/
theorem C1_failing_verdict_reported_witness :
    queryLLM envFail "a.go" "x" = Except.ok ⟨false, "use gofmt"⟩ ∧
    (("\nFile: " ++ "a.go" ++ " does not follow best practices:\n")
        ∈ (main envFail ([] ++ "a.go" :: [])).output ∧
     ("Suggestions: " ++ "use gofmt" ++ "\n") ∈ (main envFail ([] ++ "a.go" :: [])).output ∧
     ∃ pre, (main envFail ([] ++ "a.go" :: [])).output = pre ++ [warnLine]) :=
  ⟨rfl,
   C1_failing_verdict_reported envFail [] [] "a.go" "x" ⟨false, "use gofmt"⟩
     (by decide) (by decide) rfl (by decide) rfl rfl⟩

/-- C2: with more than 20 input files the program prints only the skip
line and exits 0 without reading any file or issuing any network call. -/
theorem C2_too_many_files_abort (env : Env) (files : List String)
    (h : 20 < files.length) :
    main env files =
      ⟨["Skipping as analysing more than 20 files would take too long\n"], [], [], 0⟩ := by
  have h0 : ¬ (files.length = 0) := by omega
  simp [main, h0, h]

/-- C2 witness: 21 files. -/
theorem C2_too_many_files_abort_witness :
    20 < (List.replicate 21 "a.go").length ∧
    main envReadErr (List.replicate 21 "a.go") =
      ⟨["Skipping as analysing more than 20 files would take too long\n"], [], [], 0⟩ :=
  ⟨by decide, C2_too_many_files_abort envReadErr (List.replicate 21 "a.go") (by decide)⟩

/-- C3: a file whose character count exceeds 8000 is skipped with a
printed report naming it, no request is issued for it, and the remaining
files are still processed. -/
theorem C3_oversize_skipped (env : Env) (l1 l2 : List String) (f content : String)
    (hlen : (l1 ++ f :: l2).length ≤ 20)
    (hgo : hasSuffix f ".go" = true)
    (hread : env.readFile f = Except.ok content)
    (hbig : 8000 < content.length) :
    (main env (l1 ++ f :: l2)).output =
      (loop env l1).out ++
        ["Skipping file " ++ f ++ " as it has more than 8000 characters\n"] ++
        (loop env l2).out ++
        [if (loop env l1).warn || (loop env l2).warn then warnLine else allClearLine] ∧
    (main env (l1 ++ f :: l2)).calls = (loop env l1).calls ++ (loop env l2).calls := by
  have hne : l1 ++ f :: l2 ≠ [] := by simp
  have hmain := main_eq_loop env (l1 ++ f :: l2) hne hlen
  have hstep : stepFile env f =
      ⟨["Skipping file " ++ f ++ " as it has more than 8000 characters\n"],
       [], [f], false⟩ := by
    simp [stepFile, hgo, hread, hbig]
  have hloop := loop_append env l1 (f :: l2)
  rw [hmain, hloop]
  simp [loop, hstep]

/-- C3 witness: a file of 8001 characters. -/
theorem C3_oversize_skipped_witness :
    8000 < content8001.length ∧
    ((main env8001 ([] ++ "big.go" :: [])).output =
      (loop env8001 []).out ++
        ["Skipping file " ++ "big.go" ++ " as it has more than 8000 characters\n"] ++
        (loop env8001 []).out ++
        [if (loop env8001 []).warn || (loop env8001 []).warn then warnLine else allClearLine] ∧
     (main env8001 ([] ++ "big.go" :: [])).calls =
       (loop env8001 []).calls ++ (loop env8001 []).calls) :=
  ⟨by unfold content8001; rw [length_mk_replicate]; omega,
   C3_oversize_skipped env8001 [] [] "big.go" content8001
     (by decide) (by decide) rfl (by unfold content8001; rw [length_mk_replicate]; omega)⟩

/-- C4: a file whose path does not end in `.go` is skipped silently:
nothing is printed for it, it is never read and no request is issued for
it, while all other files are processed as usual. -/
theorem C4_non_go_never_sent (env : Env) (l1 l2 : List String) (f : String)
    (hlen : (l1 ++ f :: l2).length ≤ 20)
    (hgo : hasSuffix f ".go" = false) :
    (main env (l1 ++ f :: l2)).output =
      (loop env l1).out ++ (loop env l2).out ++
        [if (loop env l1).warn || (loop env l2).warn then warnLine else allClearLine] ∧
    (main env (l1 ++ f :: l2)).calls = (loop env l1).calls ++ (loop env l2).calls ∧
    (main env (l1 ++ f :: l2)).reads = (loop env l1).reads ++ (loop env l2).reads := by
  have hne : l1 ++ f :: l2 ≠ [] := by simp
  have hmain := main_eq_loop env (l1 ++ f :: l2) hne hlen
  have hstep : stepFile env f = ⟨[], [], [], false⟩ := by
    simp [stepFile, hgo]
  have hloop := loop_append env l1 (f :: l2)
  rw [hmain, hloop]
  simp [loop, hstep]

/-- C4 witness: a `.txt` file. -/
theorem C4_non_go_never_sent_witness :
    hasSuffix "a.txt" ".go" = false ∧
    ((main envReadErr ([] ++ "a.txt" :: [])).output =
      (loop envReadErr []).out ++ (loop envReadErr []).out ++
        [if (loop envReadErr []).warn || (loop envReadErr []).warn then warnLine
         else allClearLine] ∧
     (main envReadErr ([] ++ "a.txt" :: [])).calls =
       (loop envReadErr []).calls ++ (loop envReadErr []).calls ∧
     (main envReadErr ([] ++ "a.txt" :: [])).reads =
       (loop envReadErr []).reads ++ (loop envReadErr []).reads) :=
  ⟨by decide,
   C4_non_go_never_sent envReadErr [] [] "a.txt" (by decide) (by decide)⟩

/-- C5: every per-file error (read failure, or any `queryLLM` failure —
network request failure or JSON deserialization failure at either layer)
is non-fatal: an error line is printed for the file, it contributes no
verdict (the aggregate flag is unchanged), all remaining files are still
processed and the exit code is 0. -/
theorem C5_per_file_errors_nonfatal (env : Env) (l1 l2 : List String) (f : String)
    (hlen : (l1 ++ f :: l2).length ≤ 20)
    (hgo : hasSuffix f ".go" = true)
    (herr : (∃ e, env.readFile f = Except.error e) ∨
            (∃ c e, env.readFile f = Except.ok c ∧ c.length ≤ 8000 ∧
              queryLLM env f c = Except.error e)) :
    ∃ msg,
      ((∃ e, msg = "Error reading file " ++ f ++ ": " ++ e ++ "\n") ∨
       (∃ e, msg = "Error querying LLM for file " ++ f ++ ": " ++ e ++ "\n")) ∧
      (main env (l1 ++ f :: l2)).output =
        (loop env l1).out ++ [msg] ++ (loop env l2).out ++
          [if (loop env l1).warn || (loop env l2).warn then warnLine else allClearLine] ∧
      (main env (l1 ++ f :: l2)).exitCode = 0 := by
  have hne : l1 ++ f :: l2 ≠ [] := by simp
  have hmain := main_eq_loop env (l1 ++ f :: l2) hne hlen
  have hloop := loop_append env l1 (f :: l2)
  have hstep : ∃ msg,
      ((∃ e, msg = "Error reading file " ++ f ++ ": " ++ e ++ "\n") ∨
       (∃ e, msg = "Error querying LLM for file " ++ f ++ ": " ++ e ++ "\n")) ∧
      (stepFile env f).out = [msg] ∧ (stepFile env f).warn = false := by
    rcases herr with ⟨e, he⟩ | ⟨c, e, hc, hsize, hq⟩
    · refine ⟨"Error reading file " ++ f ++ ": " ++ e ++ "\n", Or.inl ⟨e, rfl⟩, ?_, ?_⟩ <;>
        simp [stepFile, hgo, he]
    · have hnotbig : ¬ (c.length > 8000) := by omega
      refine ⟨"Error querying LLM for file " ++ f ++ ": " ++ e ++ "\n",
        Or.inr ⟨e, rfl⟩, ?_, ?_⟩ <;>
        simp [stepFile, hgo, hc, hnotbig, hq]
  rcases hstep with ⟨msg, hmsg, hsout, hswarn⟩
  refine ⟨msg, hmsg, ?_, ?_⟩
  · rw [hmain, hloop]
    simp [loop, hsout, hswarn]
  · rw [hmain]

/-- C5 witness: a file whose read fails. -/
theorem C5_per_file_errors_nonfatal_witness :
    envReadErr.readFile "a.go" = Except.error "boom" ∧
    (∃ msg,
      ((∃ e, msg = "Error reading file " ++ "a.go" ++ ": " ++ e ++ "\n") ∨
       (∃ e, msg = "Error querying LLM for file " ++ "a.go" ++ ": " ++ e ++ "\n")) ∧
      (main envReadErr ([] ++ "a.go" :: [])).output =
        (loop envReadErr []).out ++ [msg] ++ (loop envReadErr []).out ++
          [if (loop envReadErr []).warn || (loop envReadErr []).warn then warnLine
           else allClearLine] ∧
      (main envReadErr ([] ++ "a.go" :: [])).exitCode = 0) :=
  ⟨rfl,
   C5_per_file_errors_nonfatal envReadErr [] [] "a.go" (by decide) (by decide)
     (Or.inl ⟨"boom", rfl⟩)⟩

/-- C6: a processed file whose verdict has `follows_best_practices = true`
produces no per-file output at all, and when no processed file failed the
run ends with the single all-clear line instead of the warning line. -/
theorem C6_passing_verdict_quiet (env : Env) (l1 l2 : List String)
    (f content : String) (r : LLMResponse)
    (hlen : (l1 ++ f :: l2).length ≤ 20)
    (hgo : hasSuffix f ".go" = true)
    (hread : env.readFile f = Except.ok content)
    (hsize : content.length ≤ 8000)
    (hquery : queryLLM env f content = Except.ok r)
    (hpass : r.follows_best_practices = true) :
    (main env (l1 ++ f :: l2)).output =
      (loop env l1).out ++ (loop env l2).out ++
        [if (loop env l1).warn || (loop env l2).warn then warnLine else allClearLine] ∧
    ((loop env l1).warn = false → (loop env l2).warn = false →
      (main env (l1 ++ f :: l2)).output =
        (loop env l1).out ++ (loop env l2).out ++ [allClearLine]) := by
  have hne : l1 ++ f :: l2 ≠ [] := by simp
  have hmain := main_eq_loop env (l1 ++ f :: l2) hne hlen
  have hnotbig : ¬ (content.length > 8000) := by omega
  have hstep : stepFile env f = ⟨[], [buildRequest f content], [f], false⟩ := by
    simp [stepFile, hgo, hread, hnotbig, hquery, hpass]
  have hloop := loop_append env l1 (f :: l2)
  have hbase : (main env (l1 ++ f :: l2)).output =
      (loop env l1).out ++ (loop env l2).out ++
        [if (loop env l1).warn || (loop env l2).warn then warnLine else allClearLine] := by
    rw [hmain, hloop]
    simp [loop, hstep]
  refine ⟨hbase, fun h1 h2 => ?_⟩
  rw [hbase, h1, h2]
  simp

/-- C6 witness: a single mocked file whose verdict passes. -/
theorem C6_passing_verdict_quiet_witness :
    queryLLM envPass "a.go" "x" = Except.ok ⟨true, ""⟩ ∧
    ((main envPass ([] ++ "a.go" :: [])).output =
      (loop envPass []).out ++ (loop envPass []).out ++
        [if (loop envPass []).warn || (loop envPass []).warn then warnLine
         else allClearLine] ∧
     ((loop envPass []).warn = false → (loop envPass []).warn = false →
       (main envPass ([] ++ "a.go" :: [])).output =
         (loop envPass []).out ++ (loop envPass []).out ++ [allClearLine])) :=
  ⟨rfl,
   C6_passing_verdict_quiet envPass [] [] "a.go" "x" ⟨true, ""⟩
     (by decide) (by decide) rfl (by decide) rfl rfl⟩

/-- C7: on every execution path — zero files, more than 20 files, any
environment (so any mix of errors and verdicts) — the exit code is 0. -/
theorem C7_always_exit_zero (env : Env) (files : List String) :
    (main env files).exitCode = 0 := by
  unfold main
  split
  · rfl
  · split
    · rfl
    · rfl

/-- C8: for every eligible file exactly one request is issued at its place
in the run, and that request is a POST to the local server's
`/api/generate` endpoint on port 11435 with content type
`application/json`, whose body is the marshalled JSON object with the
fixed model identifier, the prompt embedding the file's name and full
content, format `json`, the fixed system prompt, and stream `false` —
in that field order. -/
theorem C8_request_shape (env : Env) (l1 l2 : List String) (f content : String)
    (hlen : (l1 ++ f :: l2).length ≤ 20)
    (hgo : hasSuffix f ".go" = true)
    (hread : env.readFile f = Except.ok content)
    (hsize : content.length ≤ 8000) :
    (main env (l1 ++ f :: l2)).calls =
      (loop env l1).calls ++ [buildRequest f content] ++ (loop env l2).calls ∧
    buildRequest f content =
      ⟨"POST", "http://127.0.0.1:11435/api/generate", "application/json",
       marshalOllamaRequest
         ⟨"qwen2.5-coder:7b",
          "File to check:\nFilename: " ++ f ++ "\nContent:\n" ++ content,
          "json", systemPrompt, false⟩⟩ := by
  refine ⟨main_calls_at_eligible env l1 l2 f content hlen hgo hread hsize, ?_⟩
  rfl

/-- C8 witness: a single readable small `.go` file (the request is issued
even though the mocked network then fails). -/
theorem C8_request_shape_witness :
    env8000.readFile "a.go" = Except.ok content8000 ∧
    content8000.length ≤ 8000 ∧
    ((main env8000 ([] ++ "a.go" :: [])).calls =
      (loop env8000 []).calls ++ [buildRequest "a.go" content8000] ++
        (loop env8000 []).calls ∧
     buildRequest "a.go" content8000 =
      ⟨"POST", "http://127.0.0.1:11435/api/generate", "application/json",
       marshalOllamaRequest
         ⟨"qwen2.5-coder:7b",
          "File to check:\nFilename: " ++ "a.go" ++ "\nContent:\n" ++ content8000,
          "json", systemPrompt, false⟩⟩) :=
  ⟨rfl,
   by unfold content8000; rw [length_mk_replicate],
   C8_request_shape env8000 [] [] "a.go" content8000 (by decide) (by decide) rfl
     (by unfold content8000; rw [length_mk_replicate])⟩

/-- C9 counterexample: the inner JSON `[]` is syntactically valid, yet the
inner unmarshal rejects it (Go returns an `UnmarshalTypeError` for any
non-object, non-null top-level value), so the file is skipped with an
error message instead of being reported as a warning.  This falsifies the
claim for inner JSON that is valid but not an object. -/
theorem C9_counterexample :
    Json.parse "[]" = Except.ok (Json.arr []) ∧
    unmarshalLLMResponse "[]" =
      Except.error "cannot unmarshal value into Go value of type main.LLMResponse" ∧
    (main envArr ["a.go"]).output =
      ["Error querying LLM for file a.go: error unmarshalling LLM response: cannot unmarshal value into Go value of type main.LLMResponse\n",
       allClearLine] :=
  ⟨rfl, rfl, rfl⟩

/-- C9 (amended): the inner verdict schema is not enforced beyond types:
any inner JSON that is a syntactically valid object whose members, when
they select one of the two struct fields under Go's fold matching
(`bytes.EqualFold`), carry a value of that field's type (or `null`), is
accepted without error; fields with no selecting member keep their
defaults `follows_best_practices = false` and `suggestions = ""`, and
extra members are ignored — so e.g. `"{}"` yields a failing verdict with
empty suggestions and the file is reported as a warning rather than
skipped. -/
theorem C9_schema_not_enforced (s : String) (kvs : List (String × Json))
    (hparse : Json.parse s = Except.ok (Json.obj kvs))
    (hok : ∀ kv ∈ kvs, llmFieldOK kv = true) :
    ∃ r, unmarshalLLMResponse s = Except.ok r ∧
      ((∀ kv ∈ kvs, jsonKeyMatch kv.1 "follows_best_practices" = false) →
        r.follows_best_practices = false) ∧
      ((∀ kv ∈ kvs, jsonKeyMatch kv.1 "suggestions" = false) →
        r.suggestions = "") := by
  have h := foldLLM_ok kvs ⟨false, ""⟩ hok
  unfold unmarshalLLMResponse
  rw [hparse]
  exact h

/-- C9 witness: the empty object is accepted and yields the defaults. -/
theorem C9_schema_not_enforced_witness :
    Json.parse "\x7b\x7d" = Except.ok (Json.obj []) ∧
    (∃ r, unmarshalLLMResponse "\x7b\x7d" = Except.ok r ∧
      r.follows_best_practices = false ∧ r.suggestions = "") := by
  refine ⟨rfl, ?_⟩
  rcases C9_schema_not_enforced "\x7b\x7d" [] rfl (by simp) with ⟨r, h1, h2, h3⟩
  exact ⟨r, h1, h2 (by simp), h3 (by simp)⟩

/-- C10: both numeric limits are strict and the size limit counts runes:
(a) a list of exactly 20 files is fully processed, not aborted; (b) a file
of exactly 8000 characters is sent to the client; (c) a file whose UTF-8
byte length exceeds 8000 is still sent as long as its rune count is at
most 8000. -/
theorem C10_strict_limits_count_runes :
    (∀ (env : Env) (files : List String), files.length = 20 →
      main env files =
        ⟨(loop env files).out ++
           [if (loop env files).warn then warnLine else allClearLine],
         (loop env files).calls, (loop env files).reads, 0⟩) ∧
    (∀ (env : Env) (l1 l2 : List String) (f content : String),
      (l1 ++ f :: l2).length ≤ 20 → hasSuffix f ".go" = true →
      env.readFile f = Except.ok content → content.length = 8000 →
      (main env (l1 ++ f :: l2)).calls =
        (loop env l1).calls ++ [buildRequest f content] ++ (loop env l2).calls) ∧
    (∀ (env : Env) (l1 l2 : List String) (f content : String),
      (l1 ++ f :: l2).length ≤ 20 → hasSuffix f ".go" = true →
      env.readFile f = Except.ok content →
      8000 < content.utf8ByteSize → content.length ≤ 8000 →
      (main env (l1 ++ f :: l2)).calls =
        (loop env l1).calls ++ [buildRequest f content] ++ (loop env l2).calls) := by
  refine ⟨?_, ?_, ?_⟩
  · intro env files h
    have h0 : files ≠ [] := by
      intro hnil
      rw [hnil] at h
      simp at h
    exact main_eq_loop env files h0 (by omega)
  · intro env l1 l2 f content hlen hgo hread hsize
    exact main_calls_at_eligible env l1 l2 f content hlen hgo hread (by omega)
  · intro env l1 l2 f content hlen hgo hread hbytes hsize
    exact main_calls_at_eligible env l1 l2 f content hlen hgo hread hsize

/-- C10 witness: 20 files run the loop; an 8000-character file and a
2001-character / 8004-byte file are both sent. -/
theorem C10_strict_limits_count_runes_witness :
    ((List.replicate 20 "a.txt").length = 20 ∧
      main envReadErr (List.replicate 20 "a.txt") =
        ⟨(loop envReadErr (List.replicate 20 "a.txt")).out ++
           [if (loop envReadErr (List.replicate 20 "a.txt")).warn then warnLine
            else allClearLine],
         (loop envReadErr (List.replicate 20 "a.txt")).calls,
         (loop envReadErr (List.replicate 20 "a.txt")).reads, 0⟩) ∧
    (content8000.length = 8000 ∧
      (main env8000 ([] ++ "a.go" :: [])).calls =
        (loop env8000 []).calls ++ [buildRequest "a.go" content8000] ++
          (loop env8000 []).calls) ∧
    (8000 < contentWide.utf8ByteSize ∧ contentWide.length ≤ 8000 ∧
      (main envWide ([] ++ "w.go" :: [])).calls =
        (loop envWide []).calls ++ [buildRequest "w.go" contentWide] ++
          (loop envWide []).calls) := by
  have hlen8000 : content8000.length = 8000 := by
    unfold content8000
    rw [length_mk_replicate]
  have hwbytes : 8000 < contentWide.utf8ByteSize := by
    unfold contentWide
    rw [utf8ByteSize_mk_replicate]
    have h4 : (Char.ofNat 0x1D569).utf8Size = 4 := by decide
    rw [h4]
    omega
  have hwlen : contentWide.length ≤ 8000 := by
    unfold contentWide
    rw [length_mk_replicate]
    omega
  refine ⟨⟨by decide, ?_⟩, ⟨hlen8000, ?_⟩, ⟨hwbytes, hwlen, ?_⟩⟩
  · exact C10_strict_limits_count_runes.1 envReadErr (List.replicate 20 "a.txt") (by decide)
  · exact C10_strict_limits_count_runes.2.1 env8000 [] [] "a.go" content8000
      (by decide) (by decide) rfl hlen8000
  · exact C10_strict_limits_count_runes.2.2 envWide [] [] "w.go" contentWide
      (by decide) (by decide) rfl hwbytes hwlen

end GoCheck
